import Mathlib

/-!
Verification of the benchmarking library's statistics engine, single-run
executor, adaptive calibration controller, comparator and isolated-execution
orchestrator.

The JavaScript/TypeScript source is shallowly embedded: JS numbers are
modelled by exact rationals (ℚ), `Math.sqrt`-valued quantities are carried in
the exact symbolic form `a + b·√r` (see `RExt`), fallible code returns
`Except`, and runtime measurements (timer readings, memory snapshots, the
values returned by the benchmarked function) are supplied by explicit
environment records, so every embedded operation is a pure computable
function of its inputs and its environment.
-/

namespace Benchmarks

/-! ## Embedded definitions -/

/-- Models the JavaScript expression `x || fallback` for a natural-number
`x`: `0` is falsy, every other number is truthy. -/
def jsOrNat (x fallback : ℕ) : ℕ :=
  if x = 0 then fallback else x

/-- Models the JavaScript expression `x || fallback` for a (finite) numeric
`x`: `0` is falsy, every other number is truthy. -/
def jsOrQ (x fallback : ℚ) : ℚ :=
  if x = 0 then fallback else x

/-- A real number of the form `a + b·√r`, used to carry `Math.sqrt`-valued
quantities (standard deviation, confidence intervals, skewness) exactly.
Wherever the code compares such a quantity with a rational, the embedding
decides the comparison by squaring (see `rsdExceeds`). -/
structure RExt where
  a : ℚ
  b : ℚ
  r : ℚ
  deriving DecidableEq, Repr

/-- Models `[...values].sort((a, b) => a - b)`: an ascending-sorted copy.  For a
total order on ℚ every sorted permutation of a list is the same list, so
insertion sort models the JS sort exactly. -/
def jsSortAsc (values : List ℚ) : List ℚ :=
  List.insertionSort (fun a b => a ≤ b) values

/-- Models `Math.min(...values)` for nonempty `values` (callers guard emptiness;
the `0` placeholder for `[]` is never consumed). -/
def jsMin : List ℚ → ℚ
  | [] => 0
  | x :: xs => xs.foldl min x

/-- Models `Math.max(...values)` for nonempty `values` (callers guard emptiness;
the `0` placeholder for `[]` is never consumed). -/
def jsMax : List ℚ → ℚ
  | [] => 0
  | x :: xs => xs.foldl max x

/-- Models `values.reduce((sum, val) => sum + val, 0) / values.length`. -/
def meanOf (values : List ℚ) : ℚ :=
  values.sum / values.length

/-- Models `values.reduce((sum, val) => sum + Math.pow(val - mean, 2), 0) / values.length`
with `mean = meanOf values`. -/
def varianceOf (values : List ℚ) : ℚ :=
  (values.map (fun val => (val - meanOf values) ^ 2)).sum / values.length

/-- Models `sorted[Math.floor(sorted.length / 2)]` over the ascending-sorted copy —
the idiom the source repeats in `calculateStats`, `calculateEnhancedStats`
and (twice) in `detectOutliers`.  Sorting preserves length, so indexing by
`l.length / 2` matches indexing by `sorted.length / 2`. -/
def sampleMedian (l : List ℚ) : ℚ :=
  (jsSortAsc l).getD (l.length / 2) 0

/-- The `StatsResult` record of `calculateStats`. -/
structure StatsResult where
  mean : ℚ
  median : ℚ
  min : ℚ
  max : ℚ
  standardDeviation : RExt
  deriving DecidableEq, Repr

/-- Models `calculateStats(values)`: throws on empty input, otherwise mean, upper
median, min, max and the standard deviation `√variance`. -/
def calculateStats (values : List ℚ) : Except String StatsResult :=
  if values.length = 0 then
    Except.error "Cannot calculate stats for empty array"
  else
    Except.ok
      { mean := meanOf values
        median := sampleMedian values
        min := jsMin values
        max := jsMax values
        standardDeviation := ⟨0, 1, varianceOf values⟩ }

/-- The `outliers` buckets of `detectOutliers`. -/
structure OutlierBuckets where
  mild : List ℚ
  extreme : List ℚ
  deriving DecidableEq, Repr

/-- The return record of `detectOutliers`. -/
structure OutliersResult where
  cleanValues : List ℚ
  outliers : OutlierBuckets
  deriving DecidableEq, Repr

/-- Modified z-score threshold for mild outliers. -/
def MILD_THRESHOLD : ℚ := 35 / 10

/-- Modified z-score threshold for extreme outliers. -/
def EXTREME_THRESHOLD : ℚ := 5

/-- Models `mad === 0 ? 0 : Math.abs(0.6745 * (value - median) / mad)`. -/
def modifiedZScore (median mad value : ℚ) : ℚ :=
  if mad = 0 then 0 else |(6745 / 10000) * (value - median) / mad|

/-- The median absolute deviation computed inside `detectOutliers`:
`absoluteDeviations.sort((a, b) => a - b)[Math.floor(absoluteDeviations.length / 2)]`. -/
def sampleMAD (values : List ℚ) : ℚ :=
  sampleMedian (values.map (fun val => |val - sampleMedian values|))

/-- The `cleanValues` array built by the classification loop of
`detectOutliers` (the `forEach` pushes each value into exactly one of three
arrays, preserving input order, so each array is a filter of the input). -/
def classifyClean (values : List ℚ) : List ℚ :=
  values.filter fun value =>
    decide (modifiedZScore (sampleMedian values) (sampleMAD values) value ≤ MILD_THRESHOLD)

/-- The `mildOutliers` array built by the classification loop of
`detectOutliers`. -/
def classifyMild (values : List ℚ) : List ℚ :=
  values.filter fun value =>
    decide (MILD_THRESHOLD < modifiedZScore (sampleMedian values) (sampleMAD values) value) &&
      decide (modifiedZScore (sampleMedian values) (sampleMAD values) value ≤ EXTREME_THRESHOLD)

/-- The `extremeOutliers` array built by the classification loop of
`detectOutliers`. -/
def classifyExtreme (values : List ℚ) : List ℚ :=
  values.filter fun value =>
    decide (EXTREME_THRESHOLD < modifiedZScore (sampleMedian values) (sampleMAD values) value)

/-- Models `detectOutliers(values)`: classify by modified z-score, then apply the
safety valve `cleanValues.length < values.length * 0.5`, which reverts to
the original input with empty outlier buckets. -/
def detectOutliers (values : List ℚ) : OutliersResult :=
  if ((classifyClean values).length : ℚ) < (values.length : ℚ) * (5 / 10) then
    { cleanValues := values, outliers := { mild := [], extreme := [] } }
  else
    { cleanValues := classifyClean values
      outliers := { mild := classifyMild values, extreme := classifyExtreme values } }

/-- The `{lower, upper}` record of `calculateConfidenceInterval`. -/
structure ConfidenceInterval where
  lower : RExt
  upper : RExt
  deriving DecidableEq, Repr

/-- The `EnhancedStatsResult` record of `calculateEnhancedStats`. -/
structure EnhancedStatsResult where
  mean : ℚ
  median : ℚ
  min : ℚ
  max : ℚ
  standardDeviation : RExt
  confidenceInterval95 : ConfidenceInterval
  relativeMarginOfError : RExt
  outliers : OutlierBuckets
  skewness : RExt
  kurtosis : RExt
  deriving DecidableEq, Repr

/-- Models `calculateConfidenceInterval(values, mean, stdDev)` where the caller
passes `stdDev = √variance`; the margin of error `1.96 · √variance / √n`
equals `1.96 · √(variance / n)`, carried exactly as an `RExt`. -/
def calculateConfidenceInterval (values : List ℚ) (mean variance : ℚ) : ConfidenceInterval :=
  { lower := ⟨mean, -(196 / 100), variance / values.length⟩
    upper := ⟨mean, 196 / 100, variance / values.length⟩ }

/-- Models `calculateSkewness(values, mean, stdDev)` with `stdDev = √variance`:
the guard `stdDev === 0` is equivalent to `variance = 0`, and
`(n/((n−1)(n−2))) · Σ((x−mean)/√variance)³ =
 ((n/((n−1)(n−2))) · Σ(x−mean)³ / variance²) · √variance`. -/
def calculateSkewness (values : List ℚ) (mean variance : ℚ) : RExt :=
  if values.length < 3 ∨ variance = 0 then ⟨0, 0, 0⟩
  else
    let n : ℚ := values.length
    ⟨0, n / ((n - 1) * (n - 2)) * (values.map (fun val => (val - mean) ^ 3)).sum / variance ^ 2,
      variance⟩

/-- Models `calculateKurtosis(values, mean, stdDev)` with `stdDev = √variance`:
`Σ((x−mean)/√variance)⁴ = Σ(x−mean)⁴ / variance²`, so the excess kurtosis
is rational. -/
def calculateKurtosis (values : List ℚ) (mean variance : ℚ) : RExt :=
  if values.length < 4 ∨ variance = 0 then ⟨0, 0, 0⟩
  else
    let n : ℚ := values.length
    ⟨n * (n + 1) / ((n - 1) * (n - 2) * (n - 3)) *
        (values.map (fun val => (val - mean) ^ 4)).sum / variance ^ 2 -
      3 * (n - 1) ^ 2 / ((n - 2) * (n - 3)), 0, 0⟩

/-- Models `calculateEnhancedStats(values)`: outlier rejection first, then all
statistics over the clean set.  `relativeMarginOfError` is
`((upper − lower)/2) / mean · 100 = (196/mean) · √(variance/n)`. -/
def calculateEnhancedStats (values : List ℚ) : Except String EnhancedStatsResult :=
  if values.length = 0 then
    Except.error "Cannot calculate stats for empty array"
  else
    let cleanValues := (detectOutliers values).cleanValues
    let mean := meanOf cleanValues
    let variance := varianceOf cleanValues
    Except.ok
      { mean := mean
        median := sampleMedian cleanValues
        min := jsMin cleanValues
        max := jsMax cleanValues
        standardDeviation := ⟨0, 1, variance⟩
        confidenceInterval95 := calculateConfidenceInterval cleanValues mean variance
        relativeMarginOfError := ⟨0, 196 / mean, variance / cleanValues.length⟩
        outliers := (detectOutliers values).outliers
        skewness := calculateSkewness cleanValues mean variance
        kurtosis := calculateKurtosis cleanValues mean variance }

/-- Models `process.memoryUsage()`-shaped snapshot. -/
structure MemorySnapshot where
  heapUsed : ℚ
  heapTotal : ℚ
  rss : ℚ
  external : ℚ
  arrayBuffers : ℚ
  deriving DecidableEq, Repr

/-- The four-dimensional memory delta of the core module. -/
structure MemoryDelta where
  heapUsed : ℚ
  heapTotal : ℚ
  rss : ℚ
  external : ℚ
  deriving DecidableEq, Repr

/-- Models `calculateMemoryDelta(before, after)` of the core module. -/
def calculateMemoryDelta (before after : MemorySnapshot) : MemoryDelta :=
  { heapUsed := after.heapUsed - before.heapUsed
    heapTotal := after.heapTotal - before.heapTotal
    rss := after.rss - before.rss
    external := after.external - before.external }

/-- Models `BenchmarkOptions`: all fields optional (`none` models an absent /
`undefined` property). -/
structure BenchmarkOptions where
  iterations : Option ℕ
  runs : Option ℕ
  warmupRuns : Option ℕ
  gcBetweenRuns : Option Bool
  deriving DecidableEq, Repr

/-- The result of `{ ...DEFAULT_OPTIONS, ...options }`: every field
defined. -/
structure MergedBenchmarkOptions where
  iterations : ℕ
  runs : ℕ
  warmupRuns : ℕ
  gcBetweenRuns : Bool
  deriving DecidableEq, Repr

/-- Models `DEFAULT_OPTIONS` of the core module. -/
def DEFAULT_OPTIONS : MergedBenchmarkOptions :=
  { iterations := 100000, runs := 1, warmupRuns := 0, gcBetweenRuns := true }

/-- Models `{ ...DEFAULT_OPTIONS, ...options }`: a property present in `options`
overrides the default. -/
def mergeOptions (options : BenchmarkOptions) : MergedBenchmarkOptions :=
  { iterations := options.iterations.getD DEFAULT_OPTIONS.iterations
    runs := options.runs.getD DEFAULT_OPTIONS.runs
    warmupRuns := options.warmupRuns.getD DEFAULT_OPTIONS.warmupRuns
    gcBetweenRuns := options.gcBetweenRuns.getD DEFAULT_OPTIONS.gcBetweenRuns }

/-- The measurements one `runBenchmark` call observes: the two memory
snapshots, the two `performance.now()` readings, and the value returned by
the benchmarked function's last invocation (the function itself has no
observable effect in the embedding; its timing cost is what the environment
reports). -/
structure BenchEnv (T : Type) where
  initialMemory : MemorySnapshot
  startTime : ℚ
  endTime : ℚ
  finalMemory : MemorySnapshot
  value : T
  deriving DecidableEq, Repr

/-- Models `BenchmarkResult<T>` of the core module. -/
structure BenchmarkResult (T : Type) where
  duration : ℚ
  iterations : ℕ
  operationsPerSecond : ℚ
  memoryDelta : MemoryDelta
  result : T
  deriving DecidableEq, Repr

/-- Models `runBenchmark(benchmarkFn, options)`.  The source performs GC hints and
warmup runs (no observable effect here), measures, runs the loop
`opts.iterations || 1` times, and returns the result record.  Note there is
no validation and no throw path: the function is total, and
`opts.iterations || 1` silently turns an explicit `iterations: 0` into one
iteration. -/
def runBenchmark {T : Type} (env : BenchEnv T) (options : BenchmarkOptions) :
    BenchmarkResult T :=
  let opts := mergeOptions options
  let duration := env.endTime - env.startTime
  let memoryDelta := calculateMemoryDelta env.initialMemory env.finalMemory
  let iterations := jsOrNat opts.iterations 1
  { duration := duration
    iterations := iterations
    operationsPerSecond := (iterations : ℚ) / duration * 1000
    memoryDelta := memoryDelta
    result := env.value }

/-- A concrete single-run environment used by counterexamples. -/
def sampleBenchEnv : BenchEnv Unit :=
  { initialMemory := ⟨0, 0, 0, 0, 0⟩
    startTime := 0
    endTime := 5
    finalMemory := ⟨0, 0, 0, 0, 0⟩
    value := () }

/-- The `comparison` record of `compareBenchmarks`. -/
structure ComparisonResult where
  timeRatio : ℚ
  opsRatio : ℚ
  memoryRatio : ℚ
  fasterName : String
  percentFaster : ℚ
  deriving DecidableEq, Repr

/-- The comparison computed by `compareBenchmarks` from the two results it
obtains by running the two benchmark functions.  The measurement step is
environment-determined (`runBenchmark` above); the comparison itself is the
pure function of the two results embedded here. -/
def compareBenchmarks {T U : Type} (nameA : String) (resultA : BenchmarkResult T)
    (nameB : String) (resultB : BenchmarkResult U) : ComparisonResult :=
  let timeRatio := resultA.duration / resultB.duration
  let opsRatio := resultB.operationsPerSecond / resultA.operationsPerSecond
  let memoryRatio := resultA.memoryDelta.heapUsed / resultB.memoryDelta.heapUsed
  { timeRatio := timeRatio
    opsRatio := opsRatio
    memoryRatio := memoryRatio
    fasterName := if 1 < timeRatio then nameB else nameA
    percentFaster :=
      if 1 < timeRatio then (timeRatio - 1) * 100 else (1 / timeRatio - 1) * 100 }

/-- A benchmark result with duration 10, used by the tie counterexample. -/
def tieResult : BenchmarkResult Unit :=
  { duration := 10, iterations := 1, operationsPerSecond := 100,
    memoryDelta := ⟨0, 0, 0, 0⟩, result := () }

/-- A benchmark result with duration 20, used by the comparator witness. -/
def slowResult : BenchmarkResult Unit :=
  { duration := 20, iterations := 1, operationsPerSecond := 50,
    memoryDelta := ⟨0, 0, 0, 0⟩, result := () }

/-- A dynamically-typed JS value in a report's open extension map.  The
orchestrator only distinguishes `typeof v === 'number'` from everything
else; arithmetic mixing non-numbers (string concatenation, `undefined`) is
abstracted into the poison value `nan`. -/
inductive JsValue where
  | num (q : ℚ)
  | str (s : String)
  | nan
  deriving DecidableEq, Repr

/-- The JSON-shaped `BenchmarkResult` a context reports back over the
message channel: the four core metric fields plus the open extension map
(`[key: string]: any`), modelled as an association list. -/
structure IsolatedResult where
  duration : ℚ
  iterations : ℕ
  operationsPerSecond : ℚ
  memoryDelta : MemoryDelta
  custom : List (String × JsValue)
  deriving DecidableEq, Repr

/-- One step of `results.reduce((sum, result) => sum + result[key], 0)`:
number + number adds; any other combination (missing key, non-number) is
abstracted to `nan`. -/
def jsAdd (acc : JsValue) (v : Option JsValue) : JsValue :=
  match acc, v with
  | JsValue.num a, some (JsValue.num b) => JsValue.num (a + b)
  | _, _ => JsValue.nan

/-- Models `v / n` on a JS value: a number divides, anything else is `nan`. -/
def jsDivBy (v : JsValue) (n : ℚ) : JsValue :=
  match v with
  | JsValue.num a => JsValue.num (a / n)
  | _ => JsValue.nan

/-- The custom-key merge of `combineResults`: a numeric value in the first
report is averaged across all reports; any other value is copied from the
first report. -/
def combineCustom (results : List IsolatedResult) (n : ℚ) :
    String × JsValue → String × JsValue
  | (key, JsValue.num _) =>
      (key, jsDivBy (results.foldl (fun acc r => jsAdd acc (r.custom.lookup key))
        (JsValue.num 0)) n)
  | kv => kv

/-- Models `combineResults(results)`: throws on an empty list, returns a single
report verbatim, and otherwise averages `duration`, `operationsPerSecond`
and each memory-delta field (the `forEach` accumulating `x / results.length`
summands is written as the sum of the mapped list), copies `iterations`
from the first report, and merges the custom keys of the first report. -/
def combineResults : List IsolatedResult → Except String IsolatedResult
  | [] => Except.error "No results to combine"
  | [r] => Except.ok r
  | r0 :: r1 :: rest =>
      let results := r0 :: r1 :: rest
      let n : ℚ := results.length
      Except.ok
        { duration := (results.map (fun r => r.duration / n)).sum
          iterations := r0.iterations
          operationsPerSecond := (results.map (fun r => r.operationsPerSecond / n)).sum
          memoryDelta :=
            { heapUsed := (results.map (fun r => r.memoryDelta.heapUsed / n)).sum
              heapTotal := (results.map (fun r => r.memoryDelta.heapTotal / n)).sum
              rss := (results.map (fun r => r.memoryDelta.rss / n)).sum
              external := (results.map (fun r => r.memoryDelta.external / n)).sum }
          custom := r0.custom.map (combineCustom results n) }

/-- The terminal message of one isolated context: either a
`BENCHMARK_RESULT` message carrying a result, or an error (an `ERROR`
message, a context `error` event, or a nonzero exit code, all of which
invoke the completion callback with an `Error`). -/
inductive ContextEvent where
  | success (r : IsolatedResult)
  | failure (message : String)
  deriving DecidableEq, Repr

/-- Whether the event is a `ContextEvent.success`, as a Bool. -/
def ContextEvent.isSuccess : ContextEvent → Bool
  | ContextEvent.success _ => true
  | ContextEvent.failure _ => false

/-- The settlement state of the promise returned by
`runIsolatedBenchmark`. -/
inductive Outcome where
  | pending
  | resolved (r : IsolatedResult)
  | rejected (message : String)
  deriving DecidableEq, Repr

/-- The mutable state captured by the promise executor of
`runIsolatedBenchmark`: the `results` array, `completedCount`,
`errorOccurred`, and the settlement state of the promise. -/
structure OrchestratorState where
  results : List IsolatedResult
  completedCount : ℕ
  errorOccurred : Bool
  outcome : Outcome
  deriving DecidableEq, Repr

/-- The state before any context reports. -/
def initialOrchestratorState : OrchestratorState :=
  { results := [], completedCount := 0, errorOccurred := false, outcome := Outcome.pending }

/-- Models `resolve(combineResults(results))`, respecting that a settled promise
ignores further settlement; a throw out of `combineResults` (impossible
here, since `results` is nonempty when resolution triggers) would surface
as a rejection. -/
def settleResolved (current : Outcome) (results : List IsolatedResult) : Outcome :=
  if current = Outcome.pending then
    match combineResults results with
    | Except.ok combined => Outcome.resolved combined
    | Except.error message => Outcome.rejected message
  else current

/-- Models `handleCompletion(result?, error?)`: returns immediately if an error was
already recorded; an error rejects (once) and blocks all further
processing; a result is appended, the counter incremented, and when the
counter reaches `processCount` the promise resolves with the combined
result. -/
def handleCompletion (processCount : ℕ) (st : OrchestratorState) (ev : ContextEvent) :
    OrchestratorState :=
  if st.errorOccurred then st
  else
    match ev with
    | ContextEvent.failure message =>
        { st with
            errorOccurred := true
            outcome :=
              if st.outcome = Outcome.pending then Outcome.rejected message else st.outcome }
    | ContextEvent.success r =>
        let results := st.results ++ [r]
        let completedCount := st.completedCount + 1
        { results := results
          completedCount := completedCount
          errorOccurred := st.errorOccurred
          outcome :=
            if completedCount = processCount then settleResolved st.outcome results
            else st.outcome }

/-- The orchestration of one `runIsolatedBenchmark` call: the single-threaded
event loop delivers the contexts' terminal messages in some order, each
processed by `handleCompletion`. -/
def runOrchestrator (processCount : ℕ) (events : List ContextEvent) : OrchestratorState :=
  events.foldl (handleCompletion processCount) initialOrchestratorState

/-- The regex `^[a-zA-Z0-9_$]+$` validating the benchmark identifier. -/
def isValidBenchmarkName (name : String) : Bool :=
  name.length != 0 && name.toList.all (fun c => c.isAlphanum || c == '_' || c == '$')

/-- Models `runIsolatedBenchmark(benchmarkName, benchmarkCode, options)`: validates
the identifier (throwing before any context is spawned), then spawns the
contexts and settles according to `handleCompletion` over the contexts'
terminal events. -/
def runIsolatedBenchmark (benchmarkName : String) (processCount : ℕ)
    (events : List ContextEvent) : Except String Outcome :=
  if ¬ isValidBenchmarkName benchmarkName then
    Except.error "Invalid benchmark name. Use only alphanumeric characters, _ and $"
  else
    Except.ok (runOrchestrator processCount events).outcome

/-- The reports carried by the success events of a trace. -/
def reportsOf (events : List ContextEvent) : List IsolatedResult :=
  events.filterMap fun e =>
    match e with
    | ContextEvent.success r => some r
    | ContextEvent.failure _ => none

/-- The message of the first failure event of a trace, if any. -/
def firstFailure (events : List ContextEvent) : Option String :=
  events.findSome? fun e =>
    match e with
    | ContextEvent.failure m => some m
    | ContextEvent.success _ => none

/-- A report whose `iterations` field is 100 (order-dependence
counterexample). -/
def reportIterations100 : IsolatedResult :=
  { duration := 10, iterations := 100, operationsPerSecond := 1,
    memoryDelta := ⟨0, 0, 0, 0⟩, custom := [] }

/-- A report whose `iterations` field is 200 (order-dependence
counterexample). -/
def reportIterations200 : IsolatedResult :=
  { duration := 10, iterations := 200, operationsPerSecond := 1,
    memoryDelta := ⟨0, 0, 0, 0⟩, custom := [] }

/-- A report used by the orchestrator completion witness. -/
def witnessReport : IsolatedResult :=
  { duration := 10, iterations := 1000, operationsPerSecond := 5,
    memoryDelta := ⟨0, 0, 0, 0⟩, custom := [] }

/-- Models `AdaptiveBenchmarkOptions`: all fields optional.  (The inherited plain
`BenchmarkOptions` fields other than `warmupRuns` are never read by the
adaptive controller and are omitted.) -/
structure AdaptiveBenchmarkOptions where
  minIterations : Option ℕ
  maxIterations : Option ℕ
  targetDuration : Option ℚ
  maxTime : Option ℚ
  targetRSD : Option ℚ
  minSamples : Option ℕ
  maxSamples : Option ℕ
  warmupRatio : Option ℚ
  adaptiveSteps : Option ℕ
  warmupRuns : Option ℕ
  deriving DecidableEq, Repr

/-- The result of `{ ...DEFAULT_ADAPTIVE_OPTIONS, ...options }`.
`warmupRuns` has no entry in `DEFAULT_ADAPTIVE_OPTIONS`, so it stays
optional. -/
structure MergedAdaptiveOptions where
  minIterations : ℕ
  maxIterations : ℕ
  targetDuration : ℚ
  maxTime : ℚ
  targetRSD : ℚ
  minSamples : ℕ
  maxSamples : ℕ
  warmupRatio : ℚ
  adaptiveSteps : ℕ
  warmupRuns : Option ℕ
  deriving DecidableEq, Repr

/-- Models `DEFAULT_ADAPTIVE_OPTIONS` of the monitoring module. -/
def DEFAULT_ADAPTIVE_OPTIONS : MergedAdaptiveOptions :=
  { minIterations := 1000
    maxIterations := 10000000
    targetDuration := 500
    maxTime := 30000
    targetRSD := 2
    minSamples := 5
    maxSamples := 100
    warmupRatio := 1 / 10
    adaptiveSteps := 4
    warmupRuns := none }

/-- Models `{ ...DEFAULT_ADAPTIVE_OPTIONS, ...options }`. -/
def mergeAdaptiveOptions (options : AdaptiveBenchmarkOptions) : MergedAdaptiveOptions :=
  { minIterations := options.minIterations.getD DEFAULT_ADAPTIVE_OPTIONS.minIterations
    maxIterations := options.maxIterations.getD DEFAULT_ADAPTIVE_OPTIONS.maxIterations
    targetDuration := options.targetDuration.getD DEFAULT_ADAPTIVE_OPTIONS.targetDuration
    maxTime := options.maxTime.getD DEFAULT_ADAPTIVE_OPTIONS.maxTime
    targetRSD := options.targetRSD.getD DEFAULT_ADAPTIVE_OPTIONS.targetRSD
    minSamples := options.minSamples.getD DEFAULT_ADAPTIVE_OPTIONS.minSamples
    maxSamples := options.maxSamples.getD DEFAULT_ADAPTIVE_OPTIONS.maxSamples
    warmupRatio := options.warmupRatio.getD DEFAULT_ADAPTIVE_OPTIONS.warmupRatio
    adaptiveSteps := options.adaptiveSteps.getD DEFAULT_ADAPTIVE_OPTIONS.adaptiveSteps
    warmupRuns := options.warmupRuns }

/-- Models `Math.floor` of a JS number used as an iteration count.  A negative
intermediate value (possible only for a negative measured duration) floors
to a negative JS number that the enclosing `Math.max` clamp discards, so
truncating at 0 is observationally equal. -/
def jsFloorToNat (q : ℚ) : ℕ :=
  (Int.floor q).toNat

/-- The two `measureDuration` readings Phase A observes: at the initial
`minIterations` count, and at the scaled count. -/
structure PhaseAEnv where
  duration1 : ℚ
  duration2 : ℚ
  deriving DecidableEq, Repr

/-- Models `findIterationsForTargetDuration(benchmarkFn, opts)`.  The source
re-merges its options argument; `runAdaptiveBenchmark` passes the already
merged record, on which the re-merge is the identity, so the embedding
takes the merged record.  The warmup run has no observable effect.  The
use sites re-apply the `|| default` fallbacks of the source. -/
def findIterationsForTargetDuration (env : PhaseAEnv) (opts : MergedAdaptiveOptions) : ℕ :=
  let iterations0 := jsOrNat opts.minIterations 1000
  let duration := env.duration1
  let iterationsPerMs := (iterations0 : ℚ) / duration
  let scaled := jsFloorToNat (iterationsPerMs * jsOrQ opts.targetDuration 500)
  let clamped := Nat.max (jsOrNat opts.minIterations 1000)
    (Nat.min (jsOrNat opts.maxIterations 10000000) scaled)
  let duration2 := env.duration2
  if jsOrQ opts.targetDuration 500 * (2 / 10) < |duration2 - jsOrQ opts.targetDuration 500| then
    let adjusted := jsFloorToNat ((clamped : ℚ) * (jsOrQ opts.targetDuration 500 / duration2))
    Nat.max (jsOrNat opts.minIterations 1000)
      (Nat.min (jsOrNat opts.maxIterations 10000000) adjusted)
  else clamped

/-- Decides `relativeStandardDeviation > targetRSD` where the RSD is
`100·√variance/mean`, tracked by its `(mean, variance)` pair (`none` is the
initial `Infinity`).  For `mean > 0`: `100√v > t·m` iff `t·m < 0` or
`10⁴v > t²m²`.  For `mean < 0`: `100√v/m > t` iff `100√v < t·m`, i.e.
`0 < t·m` and `10⁴v < t²m²`.  For `mean = 0`: JS gives `Infinity` when
`√v > 0` (true) and `NaN` otherwise (false). -/
def rsdExceeds : Option (ℚ × ℚ) → ℚ → Bool
  | none, _ => true
  | some (mean, variance), target =>
      if 0 < mean then
        decide (target * mean < 0) || decide (target ^ 2 * mean ^ 2 < 10000 * variance)
      else if mean < 0 then
        decide (0 < mean * target) && decide (10000 * variance < mean ^ 2 * target ^ 2)
      else decide (0 < variance)

/-- The measurements one `runAdaptiveBenchmark` call observes: the Phase A
durations, the per-pass single-run environments, and the
`performance.now() − startTime` elapsed readings at the while-condition,
at the bottom max-time check, and for the final `timeSpent`. -/
structure AdaptiveEnv (T : Type) where
  phaseA : PhaseAEnv
  runs : ℕ → BenchEnv T
  elapsedAtCondition : ℕ → ℚ
  elapsedAtCheck : ℕ → ℚ
  elapsedFinal : ℚ

/-- The mutable state of the Phase B sampling loop. -/
structure CalibrationLoopState (T : Type) where
  iterations : ℕ
  currentStep : ℕ
  adjustmentSteps : ℕ
  samples : List (BenchmarkResult T)
  lastStats : Option (ℚ × ℚ)
  pass : ℕ

/-- The while-condition of the Phase B loop:
`samples.length < minSamples || (rsd > targetRSD && samples.length < maxSamples
&& now − start < maxTime)`. -/
def loopCondition {T : Type} (env : AdaptiveEnv T) (opts : MergedAdaptiveOptions)
    (st : CalibrationLoopState T) : Bool :=
  decide (st.samples.length < jsOrNat opts.minSamples 5) ||
    (rsdExceeds st.lastStats (jsOrQ opts.targetRSD 2) &&
      decide (st.samples.length < jsOrNat opts.maxSamples 100) &&
      decide (env.elapsedAtCondition st.pass < jsOrQ opts.maxTime 30000))

/-- The body of one Phase B pass: run the Single-Run Executor with the
current iteration count, push the sample, and once three samples exist
evaluate statistics and apply the rescale rule
(`iterations := min(maxIterations, floor(iterations·1.5))`, clearing the
samples when the new count exceeds twice the initial count). -/
def loopBody {T : Type} (env : AdaptiveEnv T) (opts : MergedAdaptiveOptions)
    (initialIterations : ℕ) (st : CalibrationLoopState T) : CalibrationLoopState T :=
  let result := runBenchmark (env.runs st.pass)
    { iterations := some st.iterations, runs := none, warmupRuns := none,
      gcBetweenRuns := none }
  let samples := st.samples ++ [result]
  if 3 ≤ samples.length then
    let durations := samples.map (fun s => s.duration)
    let mean := meanOf durations
    let variance := varianceOf durations
    if st.currentStep ≤ jsOrNat opts.adaptiveSteps 4 ∧
        rsdExceeds (some (mean, variance)) (jsOrQ opts.targetRSD 2) = true then
      let iterations :=
        Nat.min (jsOrNat opts.maxIterations 10000000) (3 * st.iterations / 2)
      { iterations := iterations
        currentStep := st.currentStep + 1
        adjustmentSteps := st.adjustmentSteps + 1
        samples := if initialIterations * 2 < iterations then [] else samples
        lastStats := some (mean, variance)
        pass := st.pass }
    else
      { st with samples := samples, lastStats := some (mean, variance) }
  else { st with samples := samples }

/-- The Phase B loop, by fuel (`none` = fuel exhausted; the source loop is
a `while`).  Each pass runs `loopBody` and breaks out (returning the state
reached so far) when the bottom max-time check fires. -/
def adaptiveLoop {T : Type} (env : AdaptiveEnv T) (opts : MergedAdaptiveOptions)
    (initialIterations : ℕ) : ℕ → CalibrationLoopState T → Option (CalibrationLoopState T)
  | 0, _ => none
  | fuel + 1, st =>
      if loopCondition env opts st then
        let st' := loopBody env opts initialIterations st
        if jsOrQ opts.maxTime 30000 < env.elapsedAtCheck st.pass then some st'
        else adaptiveLoop env opts initialIterations fuel { st' with pass := st.pass + 1 }
      else some st

/-- The `calibration` report of `AdaptiveBenchmarkResult`.
`relativeStandardDeviation` is `100·√variance/mean = (100/mean)·√variance`;
`none` models the initial `Infinity` (reachable when the loop breaks on the
max-time check before three samples exist). -/
structure CalibrationReport where
  initialIterations : ℕ
  finalIterations : ℕ
  samples : ℕ
  relativeStandardDeviation : Option RExt
  adjustmentSteps : ℕ
  timeSpent : ℚ
  deriving DecidableEq, Repr

/-- Models `AdaptiveBenchmarkResult<T>`.  `result` is the last sample's functional
result (`none` unreachable: the empty-samples case already failed at the
final `calculateStats`). -/
structure AdaptiveBenchmarkResult (T : Type) where
  duration : ℚ
  iterations : ℕ
  operationsPerSecond : ℚ
  memoryDelta : MemoryDelta
  result : Option T
  calibration : CalibrationReport
  deriving DecidableEq, Repr

/-- How a `runAdaptiveBenchmark` call can fail in the embedding:
`emptyStats` is the `'Cannot calculate stats for empty array'` throw from
the final `calculateStats`; `outOfFuel` is the embedding's fuel bound, not
a behaviour of the source. -/
inductive AdaptiveError where
  | emptyStats
  | outOfFuel
  deriving DecidableEq, Repr

/-- Models `runAdaptiveBenchmark(benchmarkFn, options)`: Phase A calibration, the
Phase B sampling loop, then the final statistics and the combined result.
The warmup runs have no observable effect. -/
def runAdaptiveBenchmark {T : Type} (env : AdaptiveEnv T)
    (options : AdaptiveBenchmarkOptions) (fuel : ℕ) :
    Except AdaptiveError (AdaptiveBenchmarkResult T) :=
  let opts := mergeAdaptiveOptions options
  let initialIterations := findIterationsForTargetDuration env.phaseA opts
  match adaptiveLoop env opts initialIterations fuel
      { iterations := initialIterations, currentStep := 1, adjustmentSteps := 0,
        samples := [], lastStats := none, pass := 0 } with
  | none => Except.error AdaptiveError.outOfFuel
  | some st =>
      match calculateStats (st.samples.map (fun s => s.duration)) with
      | Except.error _ => Except.error AdaptiveError.emptyStats
      | Except.ok durationStats =>
          Except.ok
            { duration := durationStats.mean
              iterations := st.iterations
              operationsPerSecond := (st.iterations : ℚ) / (durationStats.mean / 1000)
              memoryDelta :=
                { heapUsed :=
                    (st.samples.map (fun s => s.memoryDelta.heapUsed)).sum / st.samples.length
                  heapTotal :=
                    (st.samples.map (fun s => s.memoryDelta.heapTotal)).sum / st.samples.length
                  rss := (st.samples.map (fun s => s.memoryDelta.rss)).sum / st.samples.length
                  external :=
                    (st.samples.map (fun s => s.memoryDelta.external)).sum / st.samples.length }
              result := st.samples.getLast?.map (fun s => s.result)
              calibration :=
                { initialIterations := initialIterations
                  finalIterations := st.iterations
                  samples := st.samples.length
                  relativeStandardDeviation :=
                    st.lastStats.map (fun p => (⟨0, 100 / p.1, p.2⟩ : RExt))
                  adjustmentSteps := st.adjustmentSteps
                  timeSpent := env.elapsedFinal } }

/-- The all-zero memory snapshot used by concrete environments. -/
def memZeroSnapshot : MemorySnapshot := ⟨0, 0, 0, 0, 0⟩

/-- A single-run environment whose measured duration is `d`. -/
def benchEnvWithDuration (d : ℚ) : BenchEnv Unit :=
  { initialMemory := memZeroSnapshot, startTime := 0, endTime := d,
    finalMemory := memZeroSnapshot, value := () }

/-- An environment in which Phase A measures exactly the 500 ms target at
1000 iterations, the loop samples take 10, 20, 30, 40 ms, and the wall
clock crosses a 100 ms budget right after the fourth sample. -/
def adaptiveEnvMaxTime : AdaptiveEnv Unit :=
  { phaseA := ⟨500, 500⟩
    runs := fun k => benchEnvWithDuration (10 * ((k : ℚ) + 1))
    elapsedAtCondition := fun _ => 0
    elapsedAtCheck := fun k => if k = 3 then 150 else 10 * ((k : ℚ) + 1)
    elapsedFinal := 200 }

/-- Options selecting a 100 ms `maxTime` and defaults otherwise. -/
def optionsMaxTime100 : AdaptiveBenchmarkOptions :=
  { minIterations := none, maxIterations := none, targetDuration := none,
    maxTime := some 100, targetRSD := none, minSamples := none, maxSamples := none,
    warmupRatio := none, adaptiveSteps := none, warmupRuns := none }

/-- An environment with rising sample durations 10, 20, 30, … ms under an
ample time budget. -/
def adaptiveEnvRising : AdaptiveEnv Unit :=
  { phaseA := ⟨500, 500⟩
    runs := fun k => benchEnvWithDuration (10 * ((k : ℚ) + 1))
    elapsedAtCondition := fun _ => 1
    elapsedAtCheck := fun _ => 1
    elapsedFinal := 400 }

/-- Options with `minIterations = 1000` greater than `maxIterations = 10`
(and a small `maxSamples` so the run terminates quickly). -/
def optionsTinyMax : AdaptiveBenchmarkOptions :=
  { minIterations := some 1000, maxIterations := some 10, targetDuration := none,
    maxTime := some 1000000, targetRSD := none, minSamples := none, maxSamples := some 6,
    warmupRatio := none, adaptiveSteps := none, warmupRuns := none }

/-- An environment with perfectly steady 10 ms samples (RSD 0). -/
def adaptiveEnvSteady : AdaptiveEnv Unit :=
  { phaseA := ⟨500, 500⟩
    runs := fun _ => benchEnvWithDuration 10
    elapsedAtCondition := fun _ => 1
    elapsedAtCheck := fun _ => 1
    elapsedFinal := 60 }

/-- The all-defaults options value. -/
def optionsDefaults : AdaptiveBenchmarkOptions :=
  { minIterations := none, maxIterations := none, targetDuration := none,
    maxTime := none, targetRSD := none, minSamples := none, maxSamples := none,
    warmupRatio := none, adaptiveSteps := none, warmupRuns := none }

/-! ## Theorems -/

theorem foldl_min_le_init (l : List ℚ) (a : ℚ) : l.foldl min a ≤ a := by
  induction l generalizing a with
  | nil => exact le_refl a
  | cons y ys ih => exact le_trans (ih (min a y)) (min_le_left a y)

theorem foldl_min_le_mem (l : List ℚ) (a x : ℚ) (hx : x ∈ l) : l.foldl min a ≤ x := by
  induction l generalizing a with
  | nil => cases hx
  | cons y ys ih =>
    rcases List.mem_cons.mp hx with rfl | hx'
    · exact le_trans (foldl_min_le_init ys (min a x)) (min_le_right a x)
    · exact ih (min a y) hx'

theorem jsMin_le_mem (l : List ℚ) (x : ℚ) (hx : x ∈ l) : jsMin l ≤ x := by
  match l, hx with
  | y :: ys, hx =>
    rcases List.mem_cons.mp hx with rfl | hx'
    · exact foldl_min_le_init ys x
    · exact foldl_min_le_mem ys y x hx'

theorem init_le_foldl_max (l : List ℚ) (a : ℚ) : a ≤ l.foldl max a := by
  induction l generalizing a with
  | nil => exact le_refl a
  | cons y ys ih => exact le_trans (le_max_left a y) (ih (max a y))

theorem mem_le_foldl_max (l : List ℚ) (a x : ℚ) (hx : x ∈ l) : x ≤ l.foldl max a := by
  induction l generalizing a with
  | nil => cases hx
  | cons y ys ih =>
    rcases List.mem_cons.mp hx with rfl | hx'
    · exact le_trans (le_max_right a x) (init_le_foldl_max ys (max a x))
    · exact ih (max a y) hx'

theorem mem_le_jsMax (l : List ℚ) (x : ℚ) (hx : x ∈ l) : x ≤ jsMax l := by
  match l, hx with
  | y :: ys, hx =>
    rcases List.mem_cons.mp hx with rfl | hx'
    · exact init_le_foldl_max ys x
    · exact mem_le_foldl_max ys y x hx'

theorem sampleMedian_mem (l : List ℚ) (h : l ≠ []) : sampleMedian l ∈ l := by
  have hpos : 0 < l.length := List.length_pos.mpr h
  have hlt : l.length / 2 < (jsSortAsc l).length := by
    rw [jsSortAsc, List.length_insertionSort]
    exact Nat.div_lt_self hpos one_lt_two
  have : sampleMedian l = (jsSortAsc l).get ⟨l.length / 2, hlt⟩ := by
    simp [sampleMedian, List.getD_eq_getElem?_getD, List.getElem?_eq_getElem hlt]
  rw [this]
  exact (List.perm_insertionSort (fun a b => a ≤ b) l).subset (List.get_mem _ _ hlt)

theorem jsMin_le_meanOf (l : List ℚ) (h : l ≠ []) : jsMin l ≤ meanOf l := by
  have hpos : (0 : ℚ) < l.length := by
    exact_mod_cast List.length_pos.mpr h
  rw [meanOf, le_div_iff₀ hpos, mul_comm]
  have := List.card_nsmul_le_sum l (jsMin l) (fun x hx => jsMin_le_mem l x hx)
  simpa [nsmul_eq_mul] using this

theorem meanOf_le_jsMax (l : List ℚ) (h : l ≠ []) : meanOf l ≤ jsMax l := by
  have hpos : (0 : ℚ) < l.length := by
    exact_mod_cast List.length_pos.mpr h
  rw [meanOf, div_le_iff₀ hpos, mul_comm]
  have := List.sum_le_card_nsmul l (jsMax l) (fun x hx => mem_le_jsMax l x hx)
  simpa [nsmul_eq_mul] using this

/-- C1 counterexample.  The claim asserts that on `[10,10,10,10,10,100]`
the value `100` is classified as an extreme (or mild) outlier and the clean
mean equals 10.  In the code, the median is 10 and the median absolute
deviation is 0, so by the `mad === 0` rule every modified z-score is 0:
both outlier buckets are empty (`100` is classified clean) and the clean
mean is 25, not 10. -/
theorem detectOutliers_spike_sample_counterexample :
    (detectOutliers [10, 10, 10, 10, 10, 100]).outliers.extreme = [] ∧
    (detectOutliers [10, 10, 10, 10, 10, 100]).outliers.mild = [] ∧
    meanOf (detectOutliers [10, 10, 10, 10, 10, 100]).cleanValues ≠ 10 := by
  norm_num [detectOutliers, classifyClean, classifyMild, classifyExtreme,
    sampleMedian, sampleMAD, jsSortAsc, modifiedZScore, MILD_THRESHOLD,
    EXTREME_THRESHOLD, List.insertionSort, List.orderedInsert, meanOf]

/-- C1 amended.  On `[10,10,10,10,10,100]` the MAD is 0, so every value —
including `100` — is classified clean: `detectOutliers` returns the whole
input as the clean set with empty outlier buckets, and the clean mean
is 25. -/
theorem detectOutliers_spike_sample_mad_zero :
    sampleMAD [10, 10, 10, 10, 10, 100] = 0 ∧
    detectOutliers [10, 10, 10, 10, 10, 100] =
      ⟨[10, 10, 10, 10, 10, 100], ⟨[], []⟩⟩ ∧
    meanOf (detectOutliers [10, 10, 10, 10, 10, 100]).cleanValues = 25 := by
  norm_num [detectOutliers, classifyClean, classifyMild, classifyExtreme,
    sampleMedian, sampleMAD, jsSortAsc, modifiedZScore, MILD_THRESHOLD,
    EXTREME_THRESHOLD, List.insertionSort, List.orderedInsert, meanOf]

/-- C4.  `detectOutliers` never returns a clean set smaller than 50% of the
input, and whenever the classification loop would leave fewer than 50% of
the values clean, the safety valve returns the original input unchanged
with both outlier buckets empty. -/
theorem detectOutliers_safety_valve (values : List ℚ) :
    values.length ≤ 2 * (detectOutliers values).cleanValues.length ∧
    (((classifyClean values).length : ℚ) < (values.length : ℚ) * (5 / 10) →
      detectOutliers values = ⟨values, ⟨[], []⟩⟩) := by
  constructor
  · unfold detectOutliers
    split
    · simp only []
      omega
    · rename_i hvalve
      push_neg at hvalve
      simp only []
      have h2 : (values.length : ℚ) ≤ 2 * (classifyClean values).length := by
        nlinarith [hvalve]
      exact_mod_cast h2
  · intro h
    unfold detectOutliers
    rw [if_pos h]

/-- C8.  For every sample list accepted by `calculateStats` (every nonempty
list), the returned summary satisfies `min ≤ median ≤ max` and
`min ≤ mean ≤ max`. -/
theorem calculateStats_bounds (values : List ℚ) (s : StatsResult)
    (h : calculateStats values = Except.ok s) :
    s.min ≤ s.median ∧ s.median ≤ s.max ∧ s.min ≤ s.mean ∧ s.mean ≤ s.max := by
  unfold calculateStats at h
  split at h
  · cases h
  · rename_i hlen
    cases h
    have hne : values ≠ [] := fun hv => hlen (by simp [hv])
    have hmed := sampleMedian_mem values hne
    exact ⟨jsMin_le_mem values _ hmed, mem_le_jsMax values _ hmed,
      jsMin_le_meanOf values hne, meanOf_le_jsMax values hne⟩

/-- C8 witness: `calculateStats` on the concrete list `[1, 2]`. -/
theorem calculateStats_bounds_witness :
    ∃ s, calculateStats [(1 : ℚ), 2] = Except.ok s ∧
      (s.min ≤ s.median ∧ s.median ≤ s.max ∧ s.min ≤ s.mean ∧ s.mean ≤ s.max) :=
  ⟨_, rfl, calculateStats_bounds [(1 : ℚ), 2] _ rfl⟩

/-- C10.  The median convention everywhere in the code is the element at
index `⌊n/2⌋` of the ascending-sorted list — for even-length input the
upper of the two middle values, not their average.  This holds for
`calculateStats`, for the median of the clean set in
`calculateEnhancedStats`, and for the median and MAD inside
`detectOutliers`; on `[1, 2]` the computed median is `2`, which differs
from the two-middle average `3/2`. -/
theorem median_upper_middle_convention (values : List ℚ) (hne : values ≠ [])
    (heven : Even values.length) (s : StatsResult)
    (hs : calculateStats values = Except.ok s) :
    s.median = (jsSortAsc values).getD (values.length / 2) 0 ∧
    (∀ e, calculateEnhancedStats values = Except.ok e →
      e.median = (jsSortAsc (detectOutliers values).cleanValues).getD
        ((detectOutliers values).cleanValues.length / 2) 0) ∧
    sampleMAD values = (jsSortAsc (values.map (fun val => |val - sampleMedian values|))).getD
      (values.length / 2) 0 ∧
    (calculateStats [(1 : ℚ), 2]).toOption.map StatsResult.median = some 2 ∧
    (2 : ℚ) ≠ (1 + 2) / 2 := by
  refine ⟨?_, ?_, ?_, ?_, by norm_num⟩
  · unfold calculateStats at hs
    split at hs
    · cases hs
    · cases hs
      rfl
  · intro e he
    unfold calculateEnhancedStats at he
    split at he
    · cases he
    · cases he
      rfl
  · simp [sampleMAD, sampleMedian]
  · have : sampleMedian [(1 : ℚ), 2] = 2 := by
      norm_num [sampleMedian, jsSortAsc, List.insertionSort, List.orderedInsert]
    simp [calculateStats, this, Except.toOption]

/-- C10 witness: the even-length list `[4, 3, 1, 2]`, whose upper-middle
median is `3`. -/
theorem median_upper_middle_convention_witness :
    ∃ s, calculateStats [(4 : ℚ), 3, 1, 2] = Except.ok s ∧
      (s.median = (jsSortAsc [(4 : ℚ), 3, 1, 2]).getD (([(4 : ℚ), 3, 1, 2].length) / 2) 0 ∧
       (∀ e, calculateEnhancedStats [(4 : ℚ), 3, 1, 2] = Except.ok e →
         e.median = (jsSortAsc (detectOutliers [(4 : ℚ), 3, 1, 2]).cleanValues).getD
           ((detectOutliers [(4 : ℚ), 3, 1, 2]).cleanValues.length / 2) 0) ∧
       sampleMAD [(4 : ℚ), 3, 1, 2] =
         (jsSortAsc ([(4 : ℚ), 3, 1, 2].map
           (fun val => |val - sampleMedian [(4 : ℚ), 3, 1, 2]|))).getD
           (([(4 : ℚ), 3, 1, 2].length) / 2) 0 ∧
       (calculateStats [(1 : ℚ), 2]).toOption.map StatsResult.median = some 2 ∧
       (2 : ℚ) ≠ (1 + 2) / 2) :=
  ⟨_, rfl, median_upper_middle_convention [(4 : ℚ), 3, 1, 2] (by simp) (by decide) _ rfl⟩

/-- C2 counterexample.  The claim asserts that `runBenchmark` with
`iterations: 0` fails immediately with `InvalidOptionsError` and that zero
is never silently defaulted.  The source has no validation and no such
error class: `runBenchmark` is total (it always returns a result record),
and on `iterations: 0` the `opts.iterations || 1` fallback silently runs
one iteration and reports `iterations = 1`. -/
theorem runBenchmark_zero_iterations_counterexample :
    runBenchmark sampleBenchEnv
        { iterations := some 0, runs := none, warmupRuns := none, gcBetweenRuns := none } =
      { duration := 5, iterations := 1, operationsPerSecond := 1 / 5 * 1000,
        memoryDelta := ⟨0, 0, 0, 0⟩, result := () } := by
  norm_num [runBenchmark, mergeOptions, jsOrNat, calculateMemoryDelta, sampleBenchEnv,
    DEFAULT_OPTIONS]

/-- C2 amended.  For every environment and every options value with
`iterations: 0`, `runBenchmark` does not fail: it silently substitutes one
iteration and the returned record reports `iterations = 1`. -/
theorem runBenchmark_zero_iterations_silently_defaults {T : Type} (env : BenchEnv T)
    (options : BenchmarkOptions) (h : options.iterations = some 0) :
    (runBenchmark env options).iterations = 1 := by
  simp [runBenchmark, mergeOptions, jsOrNat, h]

/-- C2 amended witness at a concrete environment and options value. -/
theorem runBenchmark_zero_iterations_silently_defaults_witness :
    (runBenchmark sampleBenchEnv
      { iterations := some 0, runs := none, warmupRuns := none, gcBetweenRuns := none }).iterations
      = 1 :=
  runBenchmark_zero_iterations_silently_defaults sampleBenchEnv _ rfl

/-- C9 counterexample.  With equal positive durations, `timeRatio = 1` is
not `> 1`, so the first-named input is declared faster; after swapping the
inputs the other benchmark is declared faster.  Swapping therefore does not
preserve which benchmark is the faster one, refuting the claim for ties. -/
theorem compareBenchmarks_tie_counterexample :
    (compareBenchmarks "A" tieResult "B" tieResult).fasterName = "A" ∧
    (compareBenchmarks "B" tieResult "A" tieResult).fasterName = "B" ∧
    "A" ≠ "B" := by
  refine ⟨?_, ?_, by decide⟩ <;> norm_num [compareBenchmarks, tieResult]

/-- C9 amended.  For benchmark results with positive durations:
`percentFaster ≥ 0`; `fasterName` is one of the two input names; and
whenever the two durations differ, swapping the inputs declares the same
benchmark faster.  (At exact ties the first-named input wins, so swapping
flips `fasterName`.) -/
theorem compareBenchmarks_comparator_properties {T U : Type} (nameA nameB : String)
    (resultA : BenchmarkResult T) (resultB : BenchmarkResult U)
    (hA : 0 < resultA.duration) (hB : 0 < resultB.duration) :
    0 ≤ (compareBenchmarks nameA resultA nameB resultB).percentFaster ∧
    ((compareBenchmarks nameA resultA nameB resultB).fasterName = nameA ∨
      (compareBenchmarks nameA resultA nameB resultB).fasterName = nameB) ∧
    (resultA.duration ≠ resultB.duration →
      (compareBenchmarks nameB resultB nameA resultA).fasterName =
        (compareBenchmarks nameA resultA nameB resultB).fasterName) := by
  simp only [compareBenchmarks]
  refine ⟨?_, ?_, ?_⟩
  · split
    · rename_i hgt
      nlinarith
    · rename_i hle
      push_neg at hle
      have hratio : (0 : ℚ) < resultA.duration / resultB.duration := div_pos hA hB
      have h1 : (1 : ℚ) ≤ 1 / (resultA.duration / resultB.duration) :=
        one_le_one_div hratio hle
      nlinarith
  · split
    · exact Or.inr rfl
    · exact Or.inl rfl
  · intro hne
    rcases lt_or_gt_of_ne hne with hlt | hgt
    · have h1 : ¬(1 < resultA.duration / resultB.duration) := by
        rw [not_lt, div_le_one hB]
        exact le_of_lt hlt
      have h2 : 1 < resultB.duration / resultA.duration := by
        rw [lt_div_iff₀ hA, one_mul]
        exact hlt
      simp [h1, h2]
    · have h1 : 1 < resultA.duration / resultB.duration := by
        rw [lt_div_iff₀ hB, one_mul]
        exact hgt
      have h2 : ¬(1 < resultB.duration / resultA.duration) := by
        rw [not_lt, div_le_one hA]
        exact le_of_lt hgt
      simp [h1, h2]

/-- C9 amended witness at concrete results with durations 10 and 20. -/
theorem compareBenchmarks_comparator_properties_witness :
    0 ≤ (compareBenchmarks "A" tieResult "B" slowResult).percentFaster ∧
    ((compareBenchmarks "A" tieResult "B" slowResult).fasterName = "A" ∨
      (compareBenchmarks "A" tieResult "B" slowResult).fasterName = "B") ∧
    (tieResult.duration ≠ slowResult.duration →
      (compareBenchmarks "B" slowResult "A" tieResult).fasterName =
        (compareBenchmarks "A" tieResult "B" slowResult).fasterName) :=
  compareBenchmarks_comparator_properties "A" "B" tieResult slowResult
    (by norm_num [tieResult]) (by norm_num [slowResult])

/-- C6 counterexample.  The merge is not order-independent: `iterations` is
copied from `results[0]`, so permuting two reports that differ only in
their `iterations` field changes the combined result. -/
theorem combineResults_order_dependent_counterexample :
    [reportIterations100, reportIterations200].Perm
      [reportIterations200, reportIterations100] ∧
    combineResults [reportIterations100, reportIterations200] ≠
      combineResults [reportIterations200, reportIterations100] := by
  constructor
  · exact List.Perm.swap _ _ _
  · intro h
    have h2 := congrArg (fun x => x.toOption.map IsolatedResult.iterations) h
    simp [combineResults, Except.toOption, reportIterations100, reportIterations200] at h2

/-- An averaged field of `combineResults` is invariant under permutation of
the report list. -/
theorem perm_avg_sum (f : IsolatedResult → ℚ) (rs rs' : List IsolatedResult)
    (h : rs.Perm rs') :
    (rs.map (fun r => f r / (rs.length : ℚ))).sum =
      (rs'.map (fun r => f r / (rs'.length : ℚ))).sum := by
  rw [h.length_eq]
  exact (h.map (fun r => f r / (rs'.length : ℚ))).sum_eq

/-- C6 amended.  The arithmetic-mean part of the merge is commutative and
order-independent: for every permutation of a nonempty report list, the
combined `duration`, `operationsPerSecond` and all four memory-delta fields
agree.  (`iterations` and the custom fields are taken from the first
report, so on them order-independence holds only when all reports agree —
the counterexample above.) -/
theorem combineResults_averaged_fields_perm_invariant (rs rs' : List IsolatedResult)
    (h : rs.Perm rs') (c c' : IsolatedResult)
    (hc : combineResults rs = Except.ok c) (hc' : combineResults rs' = Except.ok c') :
    c.duration = c'.duration ∧ c.operationsPerSecond = c'.operationsPerSecond ∧
      c.memoryDelta = c'.memoryDelta := by
  cases rs with
  | nil => cases hc
  | cons r0 rs0 =>
    cases rs0 with
    | nil =>
      have hrs' : rs' = [r0] := (List.singleton_perm.mp h).symm
      subst hrs'
      simp only [combineResults, Except.ok.injEq] at hc hc'
      subst hc
      subst hc'
      exact ⟨rfl, rfl, rfl⟩
    | cons r1 rest =>
      have hlen := h.length_eq
      cases rs' with
      | nil => simp at hlen
      | cons a t =>
        cases t with
        | nil => simp at hlen
        | cons b t2 =>
          simp only [combineResults, Except.ok.injEq] at hc hc'
          subst hc
          subst hc'
          refine ⟨perm_avg_sum (fun r => r.duration) _ _ h,
            perm_avg_sum (fun r => r.operationsPerSecond) _ _ h, ?_⟩
          simp only [MemoryDelta.mk.injEq]
          exact ⟨perm_avg_sum (fun r => r.memoryDelta.heapUsed) _ _ h,
            perm_avg_sum (fun r => r.memoryDelta.heapTotal) _ _ h,
            perm_avg_sum (fun r => r.memoryDelta.rss) _ _ h,
            perm_avg_sum (fun r => r.memoryDelta.external) _ _ h⟩

/-- C6 amended witness: the two-report permutation from the counterexample
has equal averaged fields. -/
theorem combineResults_averaged_fields_perm_invariant_witness :
    ∃ c c', combineResults [reportIterations100, reportIterations200] = Except.ok c ∧
      combineResults [reportIterations200, reportIterations100] = Except.ok c' ∧
      (c.duration = c'.duration ∧ c.operationsPerSecond = c'.operationsPerSecond ∧
        c.memoryDelta = c'.memoryDelta) :=
  ⟨_, _, rfl, rfl,
    combineResults_averaged_fields_perm_invariant _ _ (List.Perm.swap _ _ _) _ _ rfl rfl⟩

/-- Once `errorOccurred` is set, every further event is ignored. -/
theorem foldl_handleCompletion_error (pc : ℕ) (events : List ContextEvent)
    (st : OrchestratorState) (h : st.errorOccurred = true) :
    events.foldl (handleCompletion pc) st = st := by
  induction events with
  | nil => rfl
  | cons e evs ih =>
    rw [List.foldl_cons, show handleCompletion pc st e = st from by simp [handleCompletion, h]]
    exact ih

/-- Processing an all-success trace from a pending, error-free state:
results accumulate in order, the counter advances by the trace length, and
the promise resolves exactly when the counter reaches `processCount`. -/
theorem foldl_handleCompletion_success (pc : ℕ) :
    ∀ (events : List ContextEvent) (st : OrchestratorState),
      (∀ e ∈ events, e.isSuccess = true) →
      st.errorOccurred = false → st.outcome = Outcome.pending →
      st.completedCount + events.length ≤ pc →
      events.foldl (handleCompletion pc) st =
        { results := st.results ++ reportsOf events
          completedCount := st.completedCount + events.length
          errorOccurred := false
          outcome :=
            if events ≠ [] ∧ st.completedCount + events.length = pc then
              settleResolved Outcome.pending (st.results ++ reportsOf events)
            else Outcome.pending }
  | [], st => by
    intro _ herr hout _
    cases st
    simp_all [reportsOf]
  | e :: evs, st => by
    intro hsucc herr hout hle
    obtain ⟨r, rfl⟩ : ∃ r, e = ContextEvent.success r := by
      cases e with
      | success r => exact ⟨r, rfl⟩
      | failure m => exact absurd (hsucc _ (List.mem_cons_self _ _)) (by simp [ContextEvent.isSuccess])
    rw [List.foldl_cons]
    have hstep : handleCompletion pc st (ContextEvent.success r) =
        { results := st.results ++ [r]
          completedCount := st.completedCount + 1
          errorOccurred := false
          outcome :=
            if st.completedCount + 1 = pc then
              settleResolved Outcome.pending (st.results ++ [r])
            else Outcome.pending } := by
      simp [handleCompletion, herr, hout]
    rw [hstep]
    by_cases hpc : st.completedCount + 1 = pc
    · have hevs : evs = [] := by
        have : evs.length = 0 := by
          simp only [List.length_cons] at hle
          omega
        exact List.length_eq_zero.mp this
      subst hevs
      simp [reportsOf, hpc]
    · have := foldl_handleCompletion_success pc evs
        { results := st.results ++ [r]
          completedCount := st.completedCount + 1
          errorOccurred := false
          outcome := Outcome.pending }
        (fun x hx => hsucc x (List.mem_cons_of_mem _ hx)) rfl rfl
        (by simp only [List.length_cons] at hle ⊢; omega)
      rw [if_neg hpc]
      rw [this]
      have hrep : reportsOf (ContextEvent.success r :: evs) = r :: reportsOf evs := by
        simp [reportsOf]
      have happ : st.results ++ [r] ++ reportsOf evs = st.results ++ reportsOf
          (ContextEvent.success r :: evs) := by
        rw [hrep, List.append_assoc, List.singleton_append]
      have hcount : st.completedCount + 1 + evs.length =
          st.completedCount + (evs.length + 1) := by omega
      by_cases hevs : evs = []
      · subst hevs
        simp only [List.length_nil, Nat.add_zero, List.length_cons, Nat.zero_add] at *
        simp [happ, hpc]
      · simp only [happ, hcount, List.length_cons]
        congr 1
        by_cases hsum : st.completedCount + (evs.length + 1) = pc
        · rw [if_pos ⟨hevs, by omega⟩, if_pos ⟨by simp, hsum⟩]
        · rw [if_neg (by rintro ⟨-, h2⟩; omega), if_neg (by rintro ⟨-, h2⟩; exact hsum h2)]

/-- Processing a trace whose first failure carries message `m` from a
pending, error-free state rejects the promise with `m`. -/
theorem foldl_handleCompletion_failure (pc : ℕ) :
    ∀ (events : List ContextEvent) (st : OrchestratorState) (m : String),
      st.errorOccurred = false → st.outcome = Outcome.pending →
      st.completedCount + events.length ≤ pc →
      firstFailure events = some m →
      (events.foldl (handleCompletion pc) st).outcome = Outcome.rejected m
  | [], _, m => by
    intro _ _ _ hfail
    simp [firstFailure] at hfail
  | e :: evs, st, m => by
    intro herr hout hle hfail
    cases e with
    | failure m' =>
      have hm : m = m' := by
        simp [firstFailure, List.findSome?_cons] at hfail
        exact hfail.symm
      subst hm
      rw [List.foldl_cons]
      have hstep : handleCompletion pc st (ContextEvent.failure m) =
          { st with errorOccurred := true, outcome := Outcome.rejected m } := by
        simp [handleCompletion, herr, hout]
      rw [hstep, foldl_handleCompletion_error pc evs _ rfl]
    | success r =>
      have hfail' : firstFailure evs = some m := by
        simpa [firstFailure, List.findSome?_cons] using hfail
      rw [List.foldl_cons]
      have hstep : handleCompletion pc st (ContextEvent.success r) =
          { results := st.results ++ [r]
            completedCount := st.completedCount + 1
            errorOccurred := false
            outcome :=
              if st.completedCount + 1 = pc then
                settleResolved Outcome.pending (st.results ++ [r])
              else Outcome.pending } := by
        simp [handleCompletion, herr, hout]
      rw [hstep]
      by_cases hpc : st.completedCount + 1 = pc
      · exfalso
        have : evs.length = 0 := by
          simp only [List.length_cons] at hle
          omega
        rw [List.length_eq_zero.mp this] at hfail'
        simp [firstFailure] at hfail'
      · rw [if_neg hpc]
        exact foldl_handleCompletion_failure pc evs _ m rfl rfl
          (by simp only [List.length_cons] at hle ⊢; omega) hfail'

/-- A trace has no failure exactly when every event is a success. -/
theorem firstFailure_eq_none_iff (events : List ContextEvent) :
    firstFailure events = none ↔ ∀ e ∈ events, e.isSuccess = true := by
  rw [firstFailure, List.findSome?_eq_none_iff]
  constructor
  · intro h e he
    have := h e he
    cases e with
    | success r => rfl
    | failure m => simp at this
  · intro h e he
    have := h e he
    cases e with
    | success r => rfl
    | failure m => simp [ContextEvent.isSuccess] at this

/-- An all-success trace reports one result per event. -/
theorem reportsOf_length (events : List ContextEvent)
    (h : ∀ e ∈ events, e.isSuccess = true) : (reportsOf events).length = events.length := by
  induction events with
  | nil => rfl
  | cons e evs ih =>
    cases e with
    | success r =>
      simp [reportsOf] at ih ⊢
      exact ih (fun x hx => h x (List.mem_cons_of_mem _ hx))
    | failure m => exact absurd (h _ (List.mem_cons_self _ _)) (by simp [ContextEvent.isSuccess])

/-- The merge `combineResults` succeeds on every nonempty report list. -/
theorem combineResults_ok_of_ne_nil (rs : List IsolatedResult) (h : rs ≠ []) :
    ∃ c, combineResults rs = Except.ok c := by
  match rs, h with
  | [r], _ => exact ⟨r, rfl⟩
  | r0 :: r1 :: rest, _ => exact ⟨_, rfl⟩

/-- C5.  For an orchestrated run with `processCount` contexts, each
delivering exactly one terminal event: the promise resolves only if all
`processCount` contexts reported results — in that case with the
combination of exactly `processCount` reports — the first failure rejects
the whole call with its message, a resolution implies no context failed
(never a partial average), and no settlement happens before all
`processCount` reports are in. -/
theorem runIsolatedBenchmark_completion_policy (name : String) (pc : ℕ)
    (events : List ContextEvent) (hname : isValidBenchmarkName name = true)
    (hpc : 0 < pc) (hlen : events.length = pc) :
    runIsolatedBenchmark name pc events = Except.ok (runOrchestrator pc events).outcome ∧
    (firstFailure events = none →
      ∃ combined, combineResults (reportsOf events) = Except.ok combined ∧
        (runOrchestrator pc events).outcome = Outcome.resolved combined ∧
        (reportsOf events).length = pc) ∧
    (∀ m, firstFailure events = some m →
      (runOrchestrator pc events).outcome = Outcome.rejected m) ∧
    (∀ c, (runOrchestrator pc events).outcome = Outcome.resolved c →
      firstFailure events = none) ∧
    (∀ k, k < pc → firstFailure (events.take k) = none →
      (runOrchestrator pc (events.take k)).outcome = Outcome.pending) := by
  have hne : events ≠ [] := by
    intro h
    rw [h] at hlen
    simp at hlen
    omega
  refine ⟨by simp [runIsolatedBenchmark, hname], ?_, ?_, ?_, ?_⟩
  · intro h0
    have hsucc := (firstFailure_eq_none_iff events).mp h0
    have hrun := foldl_handleCompletion_success pc events initialOrchestratorState hsucc rfl rfl
      (by simp [initialOrchestratorState, hlen])
    have hreplen : (reportsOf events).length = pc := by
      rw [reportsOf_length events hsucc, hlen]
    have hrepne : reportsOf events ≠ [] := by
      intro h
      rw [h] at hreplen
      simp at hreplen
      omega
    obtain ⟨c, hc⟩ := combineResults_ok_of_ne_nil _ hrepne
    refine ⟨c, hc, ?_, hreplen⟩
    rw [runOrchestrator, hrun]
    simp only [initialOrchestratorState, List.nil_append]
    rw [if_pos ⟨hne, by simpa using hlen⟩]
    simp [settleResolved, hc]
  · intro m hm
    exact foldl_handleCompletion_failure pc events initialOrchestratorState m rfl rfl
      (by simp [initialOrchestratorState, hlen]) hm
  · intro c hc
    by_cases h0 : firstFailure events = none
    · exact h0
    · obtain ⟨m, hm⟩ := Option.ne_none_iff_exists'.mp h0
      have := foldl_handleCompletion_failure pc events initialOrchestratorState m rfl rfl
        (by simp [initialOrchestratorState, hlen]) hm
      rw [runOrchestrator] at hc
      rw [this] at hc
      cases hc
  · intro k hk h0
    have hsucc := (firstFailure_eq_none_iff _).mp h0
    have htlen : (events.take k).length = k := by
      rw [List.length_take, hlen]
      omega
    have hrun := foldl_handleCompletion_success pc (events.take k) initialOrchestratorState hsucc
      rfl rfl (by simp [initialOrchestratorState, htlen]; omega)
    rw [runOrchestrator, hrun]
    simp only [initialOrchestratorState]
    rw [if_neg]
    rintro ⟨-, h2⟩
    rw [htlen] at h2
    simp [initialOrchestratorState] at h2
    omega

/-- C5 witness at a concrete run: a valid name, two contexts, two success
events. -/
theorem runIsolatedBenchmark_completion_policy_witness :
    runIsolatedBenchmark "bench1" 2
        [ContextEvent.success witnessReport, ContextEvent.success witnessReport] =
      Except.ok (runOrchestrator 2
        [ContextEvent.success witnessReport, ContextEvent.success witnessReport]).outcome :=
  (runIsolatedBenchmark_completion_policy "bench1" 2
    [ContextEvent.success witnessReport, ContextEvent.success witnessReport]
    rfl (by decide) rfl).1

/-- C3.  The claim (and the spec) say Phase B never fails except through
the Single-Run Executor, and that exceeding `maxTime` yields a non-fatal
warning with partial results.  The code intends exactly that — it logs
`'Adaptive benchmark exceeded maximum time limit'` and breaks out to build
the partial result — but when the break fires right after a rescale that
cleared the sample buffer (`iterations > initialIterations * 2`), the
sample list is empty and the final `calculateStats` throws
`'Cannot calculate stats for empty array'`: a crash, not a warning, and
not a Single-Run Executor failure.  Concretely: `maxTime = 100` ms,
Phase A yields 1000 iterations, samples of 10, 20, 30, 40 ms rescale twice
(1000 → 1500 → 2250 > 2·1000, clearing the samples), and the wall clock
reads 150 ms at the following bottom check. -/
theorem runAdaptiveBenchmark_maxTime_empty_samples_throws :
    runAdaptiveBenchmark adaptiveEnvMaxTime optionsMaxTime100 10 =
      Except.error AdaptiveError.emptyStats := by
  norm_num [runAdaptiveBenchmark, adaptiveLoop, loopBody, loopCondition, rsdExceeds,
    findIterationsForTargetDuration, mergeAdaptiveOptions, optionsMaxTime100,
    DEFAULT_ADAPTIVE_OPTIONS, jsOrNat, jsOrQ, jsFloorToNat, adaptiveEnvMaxTime,
    benchEnvWithDuration, memZeroSnapshot, runBenchmark, mergeOptions, DEFAULT_OPTIONS,
    calculateMemoryDelta, meanOf, varianceOf, calculateStats]

/-- C7 counterexample.  With `minIterations = 1000 > maxIterations = 10`,
Phase A still yields 1000 iterations (its clamp takes the max with
`minIterations` last), and the first rescale step sets
`iterations := min(10, 1500) = 10 < 1000`.  The run completes with four
rescale steps and `finalIterations = 10 < 1000 = initialIterations`,
refuting monotonicity as claimed for arbitrary options. -/
theorem runAdaptiveBenchmark_rescale_nonmonotonic_counterexample :
    (runAdaptiveBenchmark adaptiveEnvRising optionsTinyMax 10).toOption.map
      (fun r => (r.calibration.initialIterations, r.calibration.finalIterations,
        r.calibration.adjustmentSteps)) = some (1000, 10, 4) ∧
    (1 : ℕ) ≤ 4 ∧ ¬ (1000 : ℕ) ≤ 10 := by
  refine ⟨?_, by norm_num, by norm_num⟩
  norm_num [runAdaptiveBenchmark, adaptiveLoop, loopBody, loopCondition, rsdExceeds,
    findIterationsForTargetDuration, mergeAdaptiveOptions, optionsTinyMax,
    DEFAULT_ADAPTIVE_OPTIONS, jsOrNat, jsOrQ, jsFloorToNat, adaptiveEnvRising,
    benchEnvWithDuration, memZeroSnapshot, runBenchmark, mergeOptions, DEFAULT_OPTIONS,
    calculateMemoryDelta, meanOf, varianceOf, calculateStats, Except.toOption]

/-- Phase A's result never exceeds the effective `maxIterations`, provided
the effective bounds are ordered. -/
theorem findIterationsForTargetDuration_le (env : PhaseAEnv) (opts : MergedAdaptiveOptions)
    (h : jsOrNat opts.minIterations 1000 ≤ jsOrNat opts.maxIterations 10000000) :
    findIterationsForTargetDuration env opts ≤ jsOrNat opts.maxIterations 10000000 := by
  unfold findIterationsForTargetDuration
  dsimp only
  split <;> exact Nat.max_le.mpr ⟨h, Nat.min_le_left _ _⟩

/-- One loop-body pass never decreases the iteration count below the Phase
A result and never exceeds the effective `maxIterations`. -/
theorem loopBody_iterations_bounds {T : Type} (env : AdaptiveEnv T)
    (opts : MergedAdaptiveOptions) (init : ℕ) (st : CalibrationLoopState T)
    (hinit : init ≤ st.iterations)
    (hmax : st.iterations ≤ jsOrNat opts.maxIterations 10000000) :
    init ≤ (loopBody env opts init st).iterations ∧
      (loopBody env opts init st).iterations ≤ jsOrNat opts.maxIterations 10000000 := by
  unfold loopBody
  dsimp only
  split
  · split
    · refine ⟨Nat.le_min.mpr ⟨le_trans hinit hmax, le_trans hinit (by omega)⟩, ?_⟩
      exact Nat.min_le_left _ _
    · exact ⟨hinit, hmax⟩
  · exact ⟨hinit, hmax⟩

/-- The Phase B loop keeps the iteration count between the Phase A result
and the effective `maxIterations`. -/
theorem adaptiveLoop_iterations_invariant {T : Type} (env : AdaptiveEnv T)
    (opts : MergedAdaptiveOptions) (init : ℕ) :
    ∀ (fuel : ℕ) (st st' : CalibrationLoopState T),
      init ≤ st.iterations → st.iterations ≤ jsOrNat opts.maxIterations 10000000 →
      adaptiveLoop env opts init fuel st = some st' →
      init ≤ st'.iterations ∧ st'.iterations ≤ jsOrNat opts.maxIterations 10000000
  | 0, st, st' => by
    intro _ _ h
    cases h
  | fuel + 1, st, st' => by
    intro hinit hmax hrun
    rw [adaptiveLoop] at hrun
    by_cases hcond : loopCondition env opts st = true
    · rw [if_pos hcond] at hrun
      have hbody := loopBody_iterations_bounds env opts init st hinit hmax
      by_cases htime :
          jsOrQ opts.maxTime 30000 < env.elapsedAtCheck st.pass
      · rw [if_pos htime] at hrun
        cases hrun
        exact hbody
      · rw [if_neg htime] at hrun
        exact adaptiveLoop_iterations_invariant env opts init fuel
          { loopBody env opts init st with pass := st.pass + 1 } st'
          hbody.1 hbody.2 hrun
    · rw [if_neg hcond] at hrun
      cases hrun
      exact ⟨hinit, hmax⟩

/-- C7 amended.  Whenever the effective iteration bounds are ordered
(`minIterations ≤ maxIterations` after defaults, which includes every sane
configuration), the calibration report satisfies
`initialIterations ≤ finalIterations` — with or without rescale steps.
Without that ordering the rescale clamp can move the count *down* to
`maxIterations < initialIterations` (see the counterexample). -/
theorem runAdaptiveBenchmark_iterations_monotonic {T : Type} (env : AdaptiveEnv T)
    (options : AdaptiveBenchmarkOptions) (fuel : ℕ)
    (hsane : jsOrNat (mergeAdaptiveOptions options).minIterations 1000 ≤
      jsOrNat (mergeAdaptiveOptions options).maxIterations 10000000)
    (res : AdaptiveBenchmarkResult T)
    (hres : runAdaptiveBenchmark env options fuel = Except.ok res) :
    res.calibration.initialIterations ≤ res.calibration.finalIterations := by
  simp only [runAdaptiveBenchmark] at hres
  split at hres
  · cases hres
  · rename_i st hloop
    split at hres
    · cases hres
    · cases hres
      have hinit_le : findIterationsForTargetDuration env.phaseA (mergeAdaptiveOptions options) ≤
          jsOrNat (mergeAdaptiveOptions options).maxIterations 10000000 :=
        findIterationsForTargetDuration_le env.phaseA (mergeAdaptiveOptions options) hsane
      exact (adaptiveLoop_iterations_invariant env (mergeAdaptiveOptions options)
        (findIterationsForTargetDuration env.phaseA (mergeAdaptiveOptions options)) fuel
        { iterations := findIterationsForTargetDuration env.phaseA (mergeAdaptiveOptions options),
          currentStep := 1, adjustmentSteps := 0, samples := [], lastStats := none, pass := 0 }
        st (le_refl _) hinit_le hloop).1

/-- C7 amended witness: a steady run under default options completes with
`initialIterations ≤ finalIterations`. -/
theorem runAdaptiveBenchmark_iterations_monotonic_witness :
    ∃ r, runAdaptiveBenchmark adaptiveEnvSteady optionsDefaults 10 = Except.ok r ∧
      r.calibration.initialIterations ≤ r.calibration.finalIterations := by
  have h : ∃ r, runAdaptiveBenchmark adaptiveEnvSteady optionsDefaults 10 = Except.ok r := by
    norm_num [runAdaptiveBenchmark, adaptiveLoop, loopBody, loopCondition, rsdExceeds,
      findIterationsForTargetDuration, mergeAdaptiveOptions, optionsDefaults,
      DEFAULT_ADAPTIVE_OPTIONS, jsOrNat, jsOrQ, jsFloorToNat, adaptiveEnvSteady,
      benchEnvWithDuration, memZeroSnapshot, runBenchmark, mergeOptions, DEFAULT_OPTIONS,
      calculateMemoryDelta, meanOf, varianceOf, calculateStats]
  obtain ⟨r, hr⟩ := h
  exact ⟨r, hr, runAdaptiveBenchmark_iterations_monotonic adaptiveEnvSteady optionsDefaults 10
    (by norm_num [mergeAdaptiveOptions, optionsDefaults, DEFAULT_ADAPTIVE_OPTIONS, jsOrNat])
    r hr⟩

/-- Sanity: the embedded JS sort is sorted. -/
theorem jsSortAsc_sorted (l : List ℚ) : (jsSortAsc l).Sorted (fun a b => a ≤ b) :=
  List.sorted_insertionSort _ l

/-- Sanity: the embedded JS sort is a permutation of its input. -/
theorem jsSortAsc_perm (l : List ℚ) : (jsSortAsc l).Perm l :=
  List.perm_insertionSort _ l

/-- Comparison with a nonnegative quantity reduces to a sign check and a
squared comparison. -/
theorem lt_nonneg_iff_sq (A B : ℝ) (hB : 0 ≤ B) : A < B ↔ A < 0 ∨ A ^ 2 < B ^ 2 := by
  constructor
  · intro h
    by_cases hA : A < 0
    · exact Or.inl hA
    · push_neg at hA
      exact Or.inr (by nlinarith)
  · rintro (h | h)
    · exact lt_of_lt_of_le h hB
    · by_contra hc
      push_neg at hc
      nlinarith

/-- A nonnegative quantity is exceeded exactly when the other side is
positive and wins the squared comparison. -/
theorem nonneg_lt_iff_sq (A B : ℝ) (hB : 0 ≤ B) : B < A ↔ 0 < A ∧ B ^ 2 < A ^ 2 := by
  constructor
  · intro h
    exact ⟨lt_of_le_of_lt hB h, by nlinarith⟩
  · rintro ⟨h1, h2⟩
    by_contra hc
    push_neg at hc
    nlinarith

/-- Sanity for the decidable RSD comparison: for a nonzero mean,
`rsdExceeds (some (mean, variance)) target` holds exactly when the real
number `100·√variance/mean` exceeds `target`, justifying the squaring
encoding used by the loop. -/
theorem rsdExceeds_eq_true_iff (mean variance target : ℚ) (hv : 0 ≤ variance)
    (hm : mean ≠ 0) :
    rsdExceeds (some (mean, variance)) target = true ↔
      (target : ℝ) < 100 * Real.sqrt (variance : ℝ) / (mean : ℝ) := by
  have hvr : (0 : ℝ) ≤ (variance : ℝ) := by exact_mod_cast hv
  have hs : Real.sqrt (variance : ℝ) ^ 2 = (variance : ℝ) := Real.sq_sqrt hvr
  have hsnn : (0 : ℝ) ≤ 100 * Real.sqrt (variance : ℝ) := by
    have := Real.sqrt_nonneg (variance : ℝ)
    nlinarith
  have hsq : (100 * Real.sqrt (variance : ℝ)) ^ 2 = 10000 * (variance : ℝ) := by
    rw [mul_pow, hs]
    norm_num
  rcases lt_trichotomy mean 0 with hneg | hzero | hpos
  · have hmr : (mean : ℝ) < 0 := by exact_mod_cast hneg
    rw [lt_div_iff_of_neg hmr]
    rw [show rsdExceeds (some (mean, variance)) target =
        (decide (0 < mean * target) && decide (10000 * variance < mean ^ 2 * target ^ 2)) from by
      simp only [rsdExceeds]
      rw [if_neg (by exact absurd · (not_lt.mpr (le_of_lt hneg))), if_pos hneg]]
    rw [Bool.and_eq_true, decide_eq_true_eq, decide_eq_true_eq,
      nonneg_lt_iff_sq _ _ hsnn, hsq]
    constructor
    · rintro ⟨h1, h2⟩
      refine ⟨by exact_mod_cast (by nlinarith : (0 : ℚ) < target * mean), ?_⟩
      have h2r : (10000 : ℝ) * (variance : ℝ) < (mean : ℝ) ^ 2 * (target : ℝ) ^ 2 := by
        exact_mod_cast h2
      nlinarith
    · rintro ⟨h1, h2⟩
      have h1q : (0 : ℚ) < target * mean := by exact_mod_cast h1
      have h2q : (10000 : ℚ) * variance < (target * mean) ^ 2 := by exact_mod_cast h2
      exact ⟨by nlinarith, by nlinarith⟩
  · exact absurd hzero hm
  · have hmr : (0 : ℝ) < (mean : ℝ) := by exact_mod_cast hpos
    rw [lt_div_iff₀ hmr]
    rw [show rsdExceeds (some (mean, variance)) target =
        (decide (target * mean < 0) || decide (target ^ 2 * mean ^ 2 < 10000 * variance)) from by
      simp only [rsdExceeds]
      rw [if_pos hpos]]
    rw [Bool.or_eq_true, decide_eq_true_eq, decide_eq_true_eq,
      lt_nonneg_iff_sq _ _ hsnn, hsq]
    constructor
    · rintro (h | h)
      · exact Or.inl (by exact_mod_cast h)
      · refine Or.inr ?_
        have hr : (target : ℝ) ^ 2 * (mean : ℝ) ^ 2 < 10000 * (variance : ℝ) := by
          exact_mod_cast h
        nlinarith
    · rintro (h | h)
      · exact Or.inl (by exact_mod_cast h)
      · refine Or.inr ?_
        have hq : ((target : ℚ) * mean) ^ 2 < 10000 * variance := by exact_mod_cast h
        nlinarith

end Benchmarks
